import Mathlib

/-!
Verification of the LSP-to-MCP bridging process
(`tools/cargo-mcp/mcp-servers-analysis/lsp-mcp-analysis/poc/main.py`).

The Python source is shallowly embedded below.  Strings are Lean `String`s
(a `String` is a structure around `data : List Char`, matching Python's
`str` as a character sequence); the process working directory `cwd`, read
once from the environment at module load, is a parameter of every
definition that reads it; the mutable `FastMCP` registry is threaded as
explicit state; the transport loop is modelled as a trace of events.
-/

namespace LspMcp

/-- Embedding of POSIX `os.path.join(a, b)` for one joined component
(`posixpath.join`): if `b` starts with the separator the accumulated path
is replaced by `b`; otherwise `b` is appended, inserting a separator
unless `a` is empty or already ends with one. -/
def pjoin (a b : String) : String :=
  if b.data.head? = some '/' then b
  else if a.data = [] ∨ a.data.getLast? = some '/' then ⟨a.data ++ b.data⟩
  else ⟨a.data ++ '/' :: b.data⟩

/-- Embedding of `os.path.isabs` on POSIX: the path starts with `'/'`.
`os.getcwd()` always returns such a path. -/
def isabs (s : String) : Bool := s.data.head? = some '/'

/-- `main.py` line 17-18: `def get_relative_path(file_path): return
os.path.join(cwd, file_path)`.  The module-level global `cwd =
os.getcwd()` is the first argument. -/
def get_relative_path (cwd : String) (file_path : String) : String :=
  pjoin cwd file_path

/-- The whitespace characters Python's `str.lstrip()` strips (ASCII
range, which covers the docstrings at hand). -/
def isPySpace (c : Char) : Bool :=
  c = ' ' ∨ c = '\t' ∨ c = '\n' ∨ c = '\r' ∨ c = '\x0b' ∨ c = '\x0c'

/-- `str.expandtabs()` with tab size 8, tracking the current column,
which resets after `'\n'` and `'\r'`. -/
def expandtabsAux : List Char → Nat → List Char
  | [], _ => []
  | c :: cs, col =>
    if c = '\t' then
      List.replicate (8 - col % 8) ' ' ++ expandtabsAux cs (col + (8 - col % 8))
    else if c = '\n' ∨ c = '\r' then c :: expandtabsAux cs 0
    else c :: expandtabsAux cs (col + 1)

/-- `str.split('\n')`. -/
def splitNl : List Char → List (List Char)
  | [] => [[]]
  | c :: cs =>
    if c = '\n' then [] :: splitNl cs
    else
      match splitNl cs with
      | [] => [[c]]
      | l :: ls => (c :: l) :: ls

/-- `str.lstrip()`. -/
def lstripL : List Char → List Char
  | [] => []
  | c :: cs => if isPySpace c then lstripL cs else c :: cs

/-- `'\n'.join(lines)`. -/
def joinNl : List (List Char) → List Char
  | [] => []
  | [l] => l
  | l :: ls => l ++ '\n' :: joinNl ls

/-- `while lines and not lines[0]: lines.pop(0)` — drop leading empty
lines. -/
def dropLeadingEmpty : List (List Char) → List (List Char)
  | [] => []
  | l :: ls => if l = [] then dropLeadingEmpty ls else l :: ls

/-- `while lines and not lines[-1]: lines.pop()` — drop trailing empty
lines. -/
def dropTrailingEmpty (ls : List (List Char)) : List (List Char) :=
  (dropLeadingEmpty ls.reverse).reverse

/-- The minimum indentation of the non-blank lines after the first, or
`none` when there is no such line (`sys.maxsize` in `inspect.cleandoc`). -/
def marginOf (lines : List (List Char)) : Option Nat :=
  (lines.drop 1).foldl
    (fun m line =>
      if (lstripL line).length ≠ 0 then
        match m with
        | none => some (line.length - (lstripL line).length)
        | some k => some (min k (line.length - (lstripL line).length))
      else m)
    none

/-- The middle of `inspect.cleandoc`: strip the first line's leading
whitespace and remove the common margin from the remaining lines. -/
def stripMargin (lines : List (List Char)) : List (List Char) :=
  match lines with
  | [] => []
  | l0 :: rest =>
    lstripL l0 ::
      (match marginOf (l0 :: rest) with
       | none => rest
       | some m => rest.map (fun l => l.drop m))

/-- `inspect.cleandoc(doc)` on the character list. -/
def cleandocL (doc : List Char) : List Char :=
  joinNl (dropLeadingEmpty (dropTrailingEmpty (stripMargin (splitNl (expandtabsAux doc 0)))))

/-- `inspect.cleandoc(doc)`. -/
def cleandoc (s : String) : String := ⟨cleandocL s.data⟩

/-- A docstring that needs no cleaning: nonempty, single-line, tab-free,
and not starting with whitespace.  `cleandoc` is the identity on these. -/
def plainDoc (d : String) : Bool :=
  match d.data with
  | [] => false
  | c :: cs => !isPySpace c && ('\n' ∉ c :: cs) && ('\t' ∉ c :: cs)

/-- A Python callable as the bridge sees it: its `__name__` and its raw
docstring `__doc__` (`none` when the function has no docstring). -/
structure Fn where
  name : String
  doc : Option String
deriving DecidableEq

/-- `inspect.getdoc(fn)`: the docstring cleaned with `inspect.cleandoc`,
or `None` when the callable carries no documentation. -/
def getdoc (fn : Fn) : Option String := fn.doc.map cleandoc

/-- The derived tool name used by `add_tool`: the namespace tag `"lsp_"`
concatenated with the operation identifier `fn.__name__`. -/
def toolName (fn : Fn) : String := "lsp_" ++ fn.name

/-- A tool descriptor held by the transport: name, description and the
registered callable. -/
structure MCPTool where
  name : String
  description : Option String
  fn : Fn
deriving DecidableEq

/-- The external `FastMCP` transport (spec §6): the server name given at
construction and the tools registered so far through its
`register(name, description, callable)` capability, which the spec gives
no failure mode. -/
structure FastMCP where
  serverName : String
  tools : List MCPTool
deriving DecidableEq

/-- The transport's `add_tool` (the spec §6 `register` capability):
record the descriptor. -/
def FastMCP.add_tool (mcp : FastMCP) (fn : Fn) (name : String)
    (description : Option String) : FastMCP :=
  ⟨mcp.serverName, mcp.tools ++ [⟨name, description, fn⟩]⟩

/-- `main.py` lines 34-35: `def add_tool(mcp, fn): mcp.add_tool(fn=fn,
name="lsp_" + fn.__name__, description=inspect.getdoc(fn))`.  The body
has no `return`, so the Python function returns `None` even though its
signature is annotated `-> MCPTool`; the pair's first component is the
threaded registry state, the second the Python return value. -/
def add_tool (mcp : FastMCP) (fn : Fn) : FastMCP × Option MCPTool :=
  (mcp.add_tool fn (toolName fn) (getdoc fn), none)

/-- The external `multilspy` `LanguageServer` as the bridge uses it: the
five query methods.  Each method's `__name__` is fixed by its `def` in
the library; the docstrings are unknown library text, so they are
fields. -/
structure LanguageServer where
  symbolsDoc : Option String
  definitionDoc : Option String
  referencesDoc : Option String
  completionsDoc : Option String
  hoverDoc : Option String
deriving DecidableEq

def LanguageServer.request_document_symbols (lsp : LanguageServer) : Fn :=
  ⟨"request_document_symbols", lsp.symbolsDoc⟩

def LanguageServer.request_definition (lsp : LanguageServer) : Fn :=
  ⟨"request_definition", lsp.definitionDoc⟩

def LanguageServer.request_references (lsp : LanguageServer) : Fn :=
  ⟨"request_references", lsp.referencesDoc⟩

def LanguageServer.request_completions (lsp : LanguageServer) : Fn :=
  ⟨"request_completions", lsp.completionsDoc⟩

def LanguageServer.request_hover (lsp : LanguageServer) : Fn :=
  ⟨"request_hover", lsp.hoverDoc⟩

/-- The registration loop of `build_mcp` (`main.py` lines 22-31) run
against a given transport: `for fn in fns: add_tool(mcp, fn)` over the
fixed five-element list. -/
def registerAll (mcp : FastMCP) (lsp : LanguageServer) : FastMCP :=
  [lsp.request_document_symbols, lsp.request_definition,
   lsp.request_references, lsp.request_completions,
   lsp.request_hover].foldl (fun m f => (add_tool m f).1) mcp

/-- `main.py` lines 20-32: `build_mcp` constructs `FastMCP("lsp")` and
registers the five query methods on it. -/
def build_mcp (lsp : LanguageServer) : FastMCP :=
  registerAll ⟨"lsp", []⟩ lsp

/-- A concrete language server whose methods carry no docstrings, used
for concrete evaluations. -/
def lspAllNone : LanguageServer := ⟨none, none, none, none, none⟩

/-- An invocation request as received by the transport: the tool name
and the argument mapping (a file path plus the position used by the
positional operations). -/
structure Request where
  tool : String
  path : String
  line : Nat
  col : Nat
deriving DecidableEq

/-- The downstream call made to the language server: which operation runs
and the arguments it receives. -/
structure Invocation where
  op : String
  path : String
  line : Nat
  col : Nat
deriving DecidableEq

/-- Transport dispatch: the tool name is resolved against the registered
descriptors; the registered callable is then invoked with the request's
arguments.  Because `add_tool` (`main.py` line 35) registers `fn` itself —
`get_relative_path` is never applied to any argument — the underlying
operation receives the request's `path` argument verbatim. -/
def dispatch (mcp : FastMCP) (req : Request) : Option Invocation :=
  match mcp.tools.find? (fun t => t.name = req.tool) with
  | none => none
  | some t => some ⟨t.fn.name, req.path, req.line, req.col⟩

/-- The hover request of the spec's scenario: `{tool:"lsp_request_hover",
args:{path:"src/a.py", line:3, col:5}}`. -/
def sampleRequest : Request := ⟨"lsp_request_hover", "src/a.py", 3, 5⟩

/-- Events of one process run: the session opens (`async with
lsp.start_server()` entered), a request is dispatched by the serving
loop (`mcp.run_stdio_async()`), the session closes (the `async with`
block exits). -/
inductive Event where
  | sessionOpen : Event
  | dispatchEv : Request → Event
  | sessionClose : Event
deriving DecidableEq

/-- The trace of `main` (`main.py` lines 37-50) when startup succeeds and
the input stream delivers `reqs` before closing: the session opens, the
loop serves every request inside the `async with` block, and the session
closes when the block exits. -/
def mainTrace (reqs : List Request) : List Event :=
  Event.sessionOpen :: (reqs.map Event.dispatchEv ++ [Event.sessionClose])

/-- Session open/closed state transition for one event. -/
def stepEvent (s : Bool) (e : Event) : Bool :=
  match e with
  | Event.sessionOpen => true
  | Event.sessionClose => false
  | Event.dispatchEv _ => s

/-- Session state after a list of events, starting closed. -/
def sessionState (evts : List Event) : Bool := evts.foldl stepEvent false

/-- Observable outcome of the whole process. -/
structure ProcessResult where
  exitZero : Bool
  errorLogged : Bool
  trace : List Event

/-- `main` as a fallible computation: `lsp.start_server()` raises
(`SessionStartError`) when the language-server process cannot be
launched or fails initialization, before `mcp.run_stdio_async()` is ever
reached; otherwise the run produces its trace and returns. -/
def mainRun (startupOk : Bool) (reqs : List Request) : Except String (List Event) :=
  if startupOk then Except.ok (mainTrace reqs) else Except.error "SessionStartError"

/-- `main.py` lines 53-58 (`__main__`): `asyncio.run(main())` inside
`try`; on exception the error is logged and re-raised, so the
interpreter exits non-zero; on normal return the process exits zero. -/
def processMain (startupOk : Bool) (reqs : List Request) : ProcessResult :=
  match mainRun startupOk reqs with
  | Except.ok t => ⟨true, false, t⟩
  | Except.error _ => ⟨false, true, []⟩

/-- The `multilspy` configuration built in `main`:
`MultilspyConfig.from_dict({"code_language": "python"})`. -/
structure MultilspyConfig where
  code_language : String
deriving DecidableEq

/-- The arguments of `LanguageServer.create` in `main`: the fixed config
and the root directory. -/
structure SessionConfig where
  config : MultilspyConfig
  root : String
deriving DecidableEq

/-- `main.py` lines 38-42: the session is created from the fixed
language `"python"` and the module-level `cwd` as root. -/
def mainSession (cwd : String) : SessionConfig :=
  ⟨⟨"python"⟩, cwd⟩

/-- One serving step of the transport loop: dispatch reads the session
configuration and the registry and produces the downstream invocation;
no step writes the configuration — the source assigns `cwd` once at
module load and never rebinds it or the config. -/
def serveStep (cfg : SessionConfig) (mcp : FastMCP) (req : Request) :
    SessionConfig × Option Invocation :=
  (cfg, dispatch mcp req)

/-- The whole serving run threading the session configuration through
every step. -/
def serveAll (cfg : SessionConfig) (mcp : FastMCP) (reqs : List Request) :
    SessionConfig × List (Option Invocation) :=
  reqs.foldl
    (fun acc r => ((serveStep acc.1 mcp r).1, acc.2 ++ [(serveStep acc.1 mcp r).2]))
    (cfg, [])

end LspMcp

namespace LspMcp

theorem pjoin_of_abs (a b : String) (h : b.data.head? = some '/') :
    pjoin a b = b := by
  unfold pjoin
  rw [if_pos h]

theorem head_pjoin (a b : String) (h : a.data.head? = some '/') :
    (pjoin a b).data.head? = some '/' := by
  unfold pjoin
  by_cases hb : b.data.head? = some '/'
  · rw [if_pos hb]; exact hb
  · rw [if_neg hb]
    obtain ⟨t, ht⟩ : ∃ t, a.data = '/' :: t := by
      cases hd : a.data with
      | nil => rw [hd] at h; exact absurd h (by simp)
      | cons c t =>
        rw [hd] at h
        simp only [List.head?_cons, Option.some.injEq] at h
        exact ⟨t, by rw [h]⟩
    by_cases hc : a.data = [] ∨ a.data.getLast? = some '/'
    · rw [if_pos hc]
      show (a.data ++ b.data).head? = some '/'
      rw [ht]; rfl
    · rw [if_neg hc]
      show (a.data ++ '/' :: b.data).head? = some '/'
      rw [ht]; rfl

/-- C7: the Path Normalizer is idempotent.  Whenever the working
directory is absolute (as `os.getcwd()` guarantees), for every path
string `p`, `get_relative_path (get_relative_path p) = get_relative_path
p`: the first join produces an absolute path, and joining the base with
an absolute second component discards the base. -/
theorem get_relative_path_idem (cwd p : String) (h : isabs cwd = true) :
    get_relative_path cwd (get_relative_path cwd p) = get_relative_path cwd p := by
  have h' : cwd.data.head? = some '/' := by
    simpa [isabs] using h
  exact pjoin_of_abs cwd _ (head_pjoin cwd p h')

/-- Witness for C7: concrete instance at `cwd = "/proj"`, `p = "src/a.py"`. -/
theorem get_relative_path_idem_witness :
    isabs "/proj" = true ∧
    get_relative_path "/proj" (get_relative_path "/proj" "src/a.py") =
      get_relative_path "/proj" "src/a.py" :=
  ⟨by decide, get_relative_path_idem "/proj" "src/a.py" (by decide)⟩

/-- C9: the normalizer is the identity on absolute inputs: joining a base
directory with an absolute second component discards the base. -/
theorem get_relative_path_absolute (cwd p : String) (h : isabs p = true) :
    get_relative_path cwd p = p :=
  pjoin_of_abs cwd p (by simpa [isabs] using h)

/-- Witness for C9: concrete instance at `cwd = "rel"`, `p = "/abs/x.py"`. -/
theorem get_relative_path_absolute_witness :
    isabs "/abs/x.py" = true ∧
    get_relative_path "rel" "/abs/x.py" = "/abs/x.py" :=
  ⟨by decide, get_relative_path_absolute "rel" "/abs/x.py" (by decide)⟩

/-- C3: `build_mcp` registers exactly one tool per operation of the fixed
five-element list, in order, each named `"lsp_"` concatenated with the
operation's identifier; the five derived names are pairwise distinct;
and the derived name is deterministic in the identifier (the tag being
fixed). -/
theorem build_mcp_tool_names (lsp : LanguageServer) :
    ((build_mcp lsp).tools.map (fun t => t.name) =
      ["lsp_request_document_symbols", "lsp_request_definition",
       "lsp_request_references", "lsp_request_completions",
       "lsp_request_hover"]) ∧
    ((build_mcp lsp).tools.map (fun t => t.name)).Nodup ∧
    (build_mcp lsp).tools.length = 5 ∧
    (∀ f g : Fn, f.name = g.name → toolName f = toolName g) := by
  obtain ⟨a, b, c, d, e⟩ := lsp
  have hn : (build_mcp ⟨a, b, c, d, e⟩).tools.map (fun t => t.name) =
      ["lsp_request_document_symbols", "lsp_request_definition",
       "lsp_request_references", "lsp_request_completions",
       "lsp_request_hover"] := rfl
  refine ⟨hn, ?_, rfl, ?_⟩
  · rw [hn]; decide
  · intro f g h
    unfold toolName
    rw [h]

/-- Witness for C3: the name equality at a concrete server and a concrete
pair of operations sharing an identifier. -/
theorem build_mcp_tool_names_witness :
    (build_mcp lspAllNone).tools.length = 5 ∧
    toolName ⟨"request_hover", none⟩ = toolName ⟨"request_hover", some "d"⟩ :=
  ⟨(build_mcp_tool_names lspAllNone).2.2.1,
   (build_mcp_tool_names lspAllNone).2.2.2 ⟨"request_hover", none⟩
     ⟨"request_hover", some "d"⟩ rfl⟩

/-- C10: `add_tool` returns `None` for every input callable, despite its
`-> MCPTool` annotation; the created descriptor is appended to the
transport's registry only, never handed back to the caller. -/
theorem add_tool_returns_none (mcp : FastMCP) (fn : Fn) :
    (add_tool mcp fn).2 = none ∧
    (add_tool mcp fn).1.tools = mcp.tools ++ [⟨toolName fn, getdoc fn, fn⟩] :=
  ⟨rfl, rfl⟩

/-- C1 evidence: the code does not normalize path arguments.  At the
spec's own scenario (working directory `/proj`, request
`lsp_request_hover` with `path = "src/a.py"`, line 3, col 5), dispatch
forwards `"src/a.py"` to the hover operation verbatim, while
`get_relative_path` would have produced `/proj/src/a.py` — a different
downstream call.  `get_relative_path` is defined but never applied on
any dispatch path of `main.py`. -/
theorem dispatch_forwards_path_unnormalized :
    dispatch (build_mcp lspAllNone) sampleRequest =
      some ⟨"request_hover", "src/a.py", 3, 5⟩ ∧
    get_relative_path "/proj" "src/a.py" = "/proj/src/a.py" ∧
    ("src/a.py" : String) ≠ "/proj/src/a.py" := by
  decide

/-- C4: if session startup fails, the process logs the causing error and
exits non-zero with an empty trace — the transport loop never began
serving; when startup succeeds and the input stream closes gracefully,
the process exits zero with nothing logged. -/
theorem startup_failure_exit (reqs : List Request) :
    processMain false reqs = ⟨false, true, []⟩ ∧
    (processMain true reqs).exitZero = true ∧
    (processMain true reqs).errorLogged = false :=
  ⟨rfl, rfl, rfl⟩

/-- C6 counterexample: running the registration loop a second time on the
same transport does not fail — no `AlreadyRegisteredError` (or any
error) exists anywhere in the code — it silently registers the five
tools again, so each derived name occurs twice. -/
theorem register_twice_counterexample :
    ((registerAll (registerAll ⟨"lsp", []⟩ lspAllNone) lspAllNone).tools.map
        (fun t => t.name) =
      ["lsp_request_document_symbols", "lsp_request_definition",
       "lsp_request_references", "lsp_request_completions",
       "lsp_request_hover",
       "lsp_request_document_symbols", "lsp_request_definition",
       "lsp_request_references", "lsp_request_completions",
       "lsp_request_hover"]) ∧
    ¬ ((registerAll (registerAll ⟨"lsp", []⟩ lspAllNone) lspAllNone).tools.map
        (fun t => t.name)).Nodup := by
  decide

/-- C6 amended: registration is unconditional — each run of the
registration loop appends the five derived names to whatever the
transport already holds, so a second run on the same transport silently
double-registers every name instead of failing. -/
theorem registerAll_appends (mcp : FastMCP) (lsp : LanguageServer) :
    (registerAll mcp lsp).tools.map (fun t => t.name) =
      mcp.tools.map (fun t => t.name) ++
        ["lsp_request_document_symbols", "lsp_request_definition",
         "lsp_request_references", "lsp_request_completions",
         "lsp_request_hover"] := by
  obtain ⟨a, b, c, d, e⟩ := lsp
  simp [registerAll, add_tool, FastMCP.add_tool, toolName,
    LanguageServer.request_document_symbols, LanguageServer.request_definition,
    LanguageServer.request_references, LanguageServer.request_completions,
    LanguageServer.request_hover]

theorem foldl_serve_fst (mcp : FastMCP) (reqs : List Request)
    (acc : SessionConfig × List (Option Invocation)) :
    (reqs.foldl
      (fun acc r => ((serveStep acc.1 mcp r).1, acc.2 ++ [(serveStep acc.1 mcp r).2]))
      acc).1 = acc.1 := by
  induction reqs generalizing acc with
  | nil => rfl
  | cons r rs ih =>
    rw [List.foldl_cons]
    exact ih _

/-- C8: the single working-directory value captured at launch is both the
session root handed to `LanguageServer.create` and the base
`get_relative_path` joins against; threading the session configuration
through an entire serving run leaves it unchanged, and the configured
language is the fixed `"python"`. -/
theorem cwd_captured_once (cwd : String) (mcp : FastMCP) (reqs : List Request) :
    (serveAll (mainSession cwd) mcp reqs).1 = mainSession cwd ∧
    (mainSession cwd).root = cwd ∧
    (∀ p : String, get_relative_path cwd p = pjoin (mainSession cwd).root p) ∧
    (mainSession cwd).config.code_language = "python" :=
  ⟨foldl_serve_fst mcp reqs _, rfl, fun _ => rfl, rfl⟩

theorem foldl_dispatch (l : List Request) (s : Bool) :
    (l.map Event.dispatchEv).foldl stepEvent s = s := by
  induction l generalizing s with
  | nil => rfl
  | cons r rs ih =>
    rw [List.map_cons, List.foldl_cons]
    exact ih _

/-- C2: the transport loop runs only while the session is open.  In the
trace of `main`, the first event opens the session, the last closes it,
and at every dispatch — the only points where a query operation is
invoked — the session state is open. -/
theorem loop_runs_while_session_open (reqs : List Request) :
    (mainTrace reqs).head? = some Event.sessionOpen ∧
    (mainTrace reqs).getLast? = some Event.sessionClose ∧
    ∀ (i : Nat) (r : Request),
      (mainTrace reqs)[i]? = some (Event.dispatchEv r) →
      sessionState ((mainTrace reqs).take i) = true := by
  refine ⟨rfl, ?_, ?_⟩
  · have hsplit : mainTrace reqs =
        (Event.sessionOpen :: reqs.map Event.dispatchEv) ++ [Event.sessionClose] := by
      simp [mainTrace]
    rw [hsplit, List.getLast?_concat]
  · intro i r h
    cases i with
    | zero => simp [mainTrace] at h
    | succ j =>
      have hj : (reqs.map Event.dispatchEv ++ [Event.sessionClose])[j]? =
          some (Event.dispatchEv r) := by
        simpa only [mainTrace, List.getElem?_cons_succ] using h
      have hlt : j < (reqs.map Event.dispatchEv).length := by
        by_contra hge
        push_neg at hge
        rw [List.getElem?_append_right hge] at hj
        cases hm : j - (reqs.map Event.dispatchEv).length with
        | zero => rw [hm] at hj; simp at hj
        | succ k => rw [hm] at hj; simp at hj
      have htake : (mainTrace reqs).take (j + 1) =
          Event.sessionOpen :: ((reqs.map Event.dispatchEv).take j) := by
        show (Event.sessionOpen :: (reqs.map Event.dispatchEv ++ [Event.sessionClose])).take (j + 1) = _
        rw [List.take_succ_cons, List.take_append_of_le_length (le_of_lt hlt)]
      rw [htake, ← List.map_take]
      exact foldl_dispatch (reqs.take j) true

/-- Witness for C2: the dispatch of the sample request in a one-request
run happens with the session open. -/
theorem loop_runs_while_session_open_witness :
    sessionState ((mainTrace [sampleRequest]).take 1) = true :=
  (loop_runs_while_session_open [sampleRequest]).2.2 1 sampleRequest rfl

theorem expandtabs_no_tab (l : List Char) (h : '\t' ∉ l) (col : Nat) :
    expandtabsAux l col = l := by
  induction l generalizing col with
  | nil => rfl
  | cons c cs ih =>
    simp only [List.mem_cons, not_or] at h
    obtain ⟨h1, h2⟩ := h
    unfold expandtabsAux
    rw [if_neg (fun e => h1 e.symm)]
    by_cases hn : c = '\n' ∨ c = '\r'
    · rw [if_pos hn, ih h2]
    · rw [if_neg hn, ih h2]

theorem splitNl_no_nl (l : List Char) (h : '\n' ∉ l) : splitNl l = [l] := by
  induction l with
  | nil => rfl
  | cons c cs ih =>
    simp only [List.mem_cons, not_or] at h
    obtain ⟨h1, h2⟩ := h
    unfold splitNl
    rw [if_neg (fun e => h1 e.symm), ih h2]

theorem lstripL_no_space (c : Char) (cs : List Char) (h : isPySpace c = false) :
    lstripL (c :: cs) = c :: cs := by
  simp [lstripL, h]

theorem cleandoc_plain (d : String) (h : plainDoc d = true) : cleandoc d = d := by
  obtain ⟨l⟩ := d
  cases l with
  | nil => simp [plainDoc] at h
  | cons c cs =>
    simp only [plainDoc, Bool.and_eq_true, Bool.not_eq_true', decide_eq_true_eq] at h
    obtain ⟨⟨h1, h2⟩, h3⟩ := h
    have key : cleandocL (c :: cs) = c :: cs := by
      unfold cleandocL
      rw [expandtabs_no_tab _ h3 0, splitNl_no_nl _ h2]
      have hsm : stripMargin [c :: cs] = [lstripL (c :: cs)] := rfl
      rw [hsm, lstripL_no_space c cs h1]
      rfl
    show String.mk (cleandocL (c :: cs)) = String.mk (c :: cs)
    rw [key]

/-- C5 counterexample: for an operation with no documentation the
registered description is `none` (Python `None`), which differs from the
empty string; and for a docstring with an indented continuation line the
registered description is the `cleandoc`-cleaned text, not the verbatim
docstring. -/
theorem add_tool_description_counterexample :
    ((add_tool ⟨"lsp", []⟩ ⟨"f", none⟩).1.tools.map (fun t => t.description) =
      [none]) ∧
    ((none : Option String) ≠ some "") ∧
    ((add_tool ⟨"lsp", []⟩ ⟨"g", some "a\n   b"⟩).1.tools.map
      (fun t => t.description) = [some "a\nb"]) ∧
    (("a\nb" : String) ≠ "a\n   b") := by
  decide

/-- C5 amended: the registered description is the operation's
documentation as `inspect.getdoc` returns it — the docstring cleaned by
`cleandoc`, hence verbatim whenever the docstring needs no cleaning
(nonempty, single-line, tab-free, no leading whitespace) — and `None`
(absent, not the empty string) when the operation has no documentation;
registration succeeds in every case, appending exactly one descriptor. -/
theorem add_tool_description (mcp : FastMCP) (fn : Fn) :
    ((add_tool mcp fn).1.tools.map (fun t => t.description) =
      mcp.tools.map (fun t => t.description) ++ [fn.doc.map cleandoc]) ∧
    (∀ d : String, plainDoc d = true → cleandoc d = d) := by
  refine ⟨?_, fun d hd => cleandoc_plain d hd⟩
  simp [add_tool, FastMCP.add_tool, getdoc]

/-- Witness for C5 amended: a documented operation with a plain docstring
is registered with that text unchanged. -/
theorem add_tool_description_witness :
    plainDoc "Hover info." = true ∧
    (add_tool ⟨"lsp", []⟩ ⟨"request_hover", some "Hover info."⟩).1.tools.map
      (fun t => t.description) = [some "Hover info."] := by
  have h := add_tool_description ⟨"lsp", []⟩ ⟨"request_hover", some "Hover info."⟩
  refine ⟨by decide, ?_⟩
  rw [h.1]
  show [some (cleandoc "Hover info.")] = [some "Hover info."]
  rw [h.2 "Hover info." (by decide)]

end LspMcp
